import Mathlib

/-!
Verification development for the nnstreamer face-landmark / face-mesh
tensor-decoder subplugins
(`src/ext/nnstreamer/tensor_decoder/tensordec-facelandmark.c` and
`src/ext/nnstreamer/tensor_decoder/tensordec-facemesh.c`).

Each source file concatenates several revisions of the decoder.  We embed
the revisions the claims refer to:

* `FLa` — tensordec-facelandmark.c, first revision (`fm_` symbols:
  `draw_point`, `draw_line`, `draw_lines`, `draw`, `fm_decode`);
* `FLb` — tensordec-facelandmark.c, second revision (`fl_` symbols with
  `_sigmoid`, strict `prob > prob_threshold` gate inside `draw`);
* `FMa` — tensordec-facemesh.c, first revision (`fm_` symbols:
  `draw_single_line`, points drawn before lines);
* `FMc` — tensordec-facemesh.c, third revision (`fl_` symbols with
  `line_data mediapipe_keypoints[]`, `face.valid = prob >= prob_threshold`).

Modelling conventions:
* the RGBA pixel buffer is a total map `Frame : Int -> Nat` from flat
  pixel index (`y * width + x` exactly as in the C address computation)
  to the 32-bit colour stored there, so that stores outside the
  allocated index range `[0, width*height)` stay observable;
* C `float` landmark coordinates are modelled as exact rationals, and the
  `(int)` cast as truncation toward zero (`ratTrunc`);
* `_sigmoid` is evaluated on floats in the C source; the decode embeddings
  take the resulting probability value `p` directly (the sigmoid is a
  strictly monotone bijection onto (0,1), and sigmoid(0) = 1/2 exactly,
  also in IEEE arithmetic, which is what the equality-threshold
  statements below use);
* `gst_memory_map` is assumed to succeed (its failure path is host
  buffer-lifecycle behaviour none of the claims quantify over), and the
  `memset` zero-fill is the all-zero frame `zeroFrame`.
-/

namespace NNS

/-- A pixel buffer: flat pixel index to stored 32-bit colour.  Index
`y * width + x` mirrors the C address `frame[y * fmdata->width + x]`. -/
def Frame : Type := Int → Nat

/-- The frame right after `memset (out_info.data, 0, size)`. -/
def zeroFrame : Frame := fun _ => 0

/-- A single store `frame[idx] = color`. -/
def setPix (f : Frame) (idx : Int) (color : Nat) : Frame :=
  fun i => if i = idx then color else f i

/-- Point colour 0xFF0000FF used by every revision's point pass. -/
def pointColor : Nat := 0xFF0000FF

/-- Line colour 0xFFFF0000 used by every revision's line pass. -/
def lineColor : Nat := 0xFFFF0000

/-- Offsets `-r, ..., r` of the stamp loops `for (i = -r; i <= r; i++)`. -/
def stampOffsets (r : Nat) : List Int :=
  (List.range (2 * r + 1)).map (fun k => (k : Int) - (r : Int))

/-- `draw_point` of tensordec-facelandmark.c (both revisions; the
facemesh.c point loop has the same body with its own radius): stores
`color` at every `(px+i, py+j)` with `i, j` in `[-r, r]` whose coordinates
pass the legacy clip test `!(x < 0 || x > width || y < 0 || y > height)`
(inclusive at `width`/`height`), at flat index `y * width + x`. -/
def draw_point (w h : Nat) (px py : Int) (r : Nat) (color : Nat)
    (frame : Frame) : Frame :=
  (stampOffsets r).foldl
    (fun f i =>
      (stampOffsets r).foldl
        (fun f j =>
          let x := px + i
          let y := py + j
          if x < 0 ∨ x > (w : Int) ∨ y < 0 ∨ y > (h : Int) then f
          else setPix f (y * (w : Int) + x) color)
        f)
    frame

/-- Truncation toward zero, the effect of the C cast `(int)` on a real
value (`q = q.num / q.den` with positive denominator, and `Int.tdiv`
rounds toward zero). -/
def ratTrunc (q : ℚ) : Int :=
  q.num.tdiv (q.den : Int)

/-- The per-landmark coordinate transform of `fl_decode` / `draw`:
`v = (int)((w * c) / iw); v = MAX(0, v); v = MIN((int)w - 1, v)`. -/
def mapCoordinate (w iw : Nat) (c : ℚ) : Int :=
  min ((w : Int) - 1) (max 0 (ratTrunc ((w : ℚ) * c / (iw : ℚ))))

/-- Modelled from the spec (section 4.1 Coordinate Mapper), for comparison
with the code's `mapCoordinate`:
`ox = floor(width * x / i_width); ox = clamp(ox, 0, width - 1)`. -/
def specMapCoordinate (w iw : Nat) (c : ℚ) : Int :=
  min ((w : Int) - 1) (max 0 ⌊(w : ℚ) * c / (iw : ℚ)⌋)

/-- The Bresenham `while (TRUE)` loop shared verbatim by `draw_line`
(facelandmark.c, both revisions; facemesh.c third revision) and
`draw_single_line` (facemesh.c first revision); the two differ only in
what one iteration plots, so the plot action is a parameter.  `x1 y1 sx
sy dx dy` are the loop-invariant values computed before the loop; the
per-iteration state is `x0 y0 err`.  The C loop has no fuel; `fuel` makes
the recursion structural and `none` marks fuel exhaustion (the callers
pass `(x1-x0).natAbs + (y1-y0).natAbs + 1`, which `bresGo_complete` below
proves is never exhausted).  Note the loop recomputes `error * 2` for the
second test after `error += dy`, so the second test sees the updated
error — the inner `Option (Int × Int)` value is the x-branch outcome:
`none` models `if (x0 == x1) break`. -/
def bresGo {A : Type} (plot : Int → Int → A → A) (x1 y1 sx sy dx dy : Int) :
    Nat → Int → Int → Int → A → Option A
  | 0, _, _, _, _ => none
  | fuel + 1, x0, y0, err, a =>
    let a1 := plot x0 y0 a
    if x0 = x1 ∧ y0 = y1 then some a1
    else
      match (if dy ≤ 2 * err then
               (if x0 = x1 then none else some (x0 + sx, err + dy))
             else some (x0, err) : Option (Int × Int)) with
      | none => some a1
      | some (x0n, errn) =>
        if 2 * errn ≤ dx then
          if y0 = y1 then some a1
          else bresGo plot x1 y1 sx sy dx dy fuel x0n (y0 + sy) (errn + dx) a1
        else bresGo plot x1 y1 sx sy dx dy fuel x0n y0 errn a1

/-- The fuel the embeddings hand to `bresGo`; `bresGo_complete` shows it
is enough for the loop to reach one of its `break`s. -/
def bresFuel (x0 y0 x1 y1 : Int) : Nat :=
  (x1 - x0).natAbs + (y1 - y0).natAbs + 1

/-- Runs the Bresenham loop with the initialization of `draw_line` /
`draw_single_line`: `dx = ABS (x1 - x0); sx = x0 < x1 ? 1 : -1;
dy = -ABS (y1 - y0); sy = y0 < y1 ? 1 : -1; error = dx + dy`. -/
def bresRun {A : Type} (plot : Int → Int → A → A) (x0 y0 x1 y1 : Int)
    (a : A) : Option A :=
  let dx := |x1 - x0|
  let sx : Int := if x0 < x1 then 1 else -1
  let dy := -|y1 - y0|
  let sy : Int := if y0 < y1 then 1 else -1
  bresGo plot x1 y1 sx sy dx dy (bresFuel x0 y0 x1 y1) x0 y0 (dx + dy) a

/-- The list of pixels the Bresenham walk visits (each is plotted), most
recently visited first. -/
def bresTrace (x0 y0 x1 y1 : Int) : Option (List (Int × Int)) :=
  bresRun (fun x y l => (x, y) :: l) x0 y0 x1 y1 []

/-- `draw_line` of facelandmark.c (both revisions) and of the facemesh.c
third revision: the Bresenham walk where every visited pixel is stamped
with `draw_point (..., line_width, 0xFFFF0000)`. -/
def draw_line (w h lw : Nat) (x0 y0 x1 y1 : Int) (frame : Frame) : Frame :=
  (bresRun (fun x y f => draw_point w h x y lw lineColor f)
      x0 y0 x1 y1 frame).getD frame

/-- `draw_single_line` of the facemesh.c first revision: the same walk,
but each visited pixel is a single unclipped store
`frame[y0 * fmdata->width + x0] = 0xFFFF0000`. -/
def draw_single_line (w : Nat) (x0 y0 x1 y1 : Int) (frame : Frame) : Frame :=
  (bresRun (fun x y f => setPix f (y * (w : Int) + x) lineColor)
      x0 y0 x1 y1 frame).getD frame

/-! ## The mediapipe topology table

The same 13 index groups appear as local arrays in the `draw` of
facelandmark.c (both revisions) and of the facemesh.c first revision, and
as the static `line_data mediapipe_keypoints[]` table of the facemesh.c
third revision (whose `num_connections` fields equal the list lengths
below). -/

def silhouette : List Nat :=
  [10, 338, 297, 332, 284, 251, 389, 356, 454, 323, 361, 288, 397, 365,
   379, 378, 400, 377, 152, 148, 176, 149, 150, 136, 172, 58, 132, 93,
   234, 127, 162, 21, 54, 103, 67, 109, 10]

def lipsUpperOuter : List Nat := [61, 185, 40, 39, 37, 0, 267, 269, 270, 409, 291]

def lipsLowerOuter : List Nat := [146, 91, 181, 84, 17, 314, 405, 321, 375, 291]

def lipsUpperInner : List Nat := [78, 191, 80, 81, 82, 13, 312, 311, 310, 415, 308]

def lipsLowerInner : List Nat := [78, 95, 88, 178, 87, 14, 317, 402, 318, 324, 308]

def rightEyeUpper0 : List Nat := [246, 161, 160, 159, 158, 157, 173]

def rightEyeLower0 : List Nat := [33, 7, 163, 144, 145, 153, 154, 155, 133]

def rightEyebrowUpper : List Nat := [70, 63, 105, 66, 107]

def rightEyebrowLower : List Nat := [46, 53, 52, 65, 55]

def leftEyeUpper0 : List Nat := [466, 388, 387, 386, 385, 384, 398]

def leftEyeLower0 : List Nat := [263, 249, 390, 373, 374, 380, 381, 382, 362]

def leftEyebrowUpper : List Nat := [300, 293, 334, 296, 336]

def leftEyebrowLower : List Nat := [276, 283, 282, 295, 285]

/-- The `lines[MEDIAPIPE_NUM_LINES]` array / `mediapipe_keypoints[]`
table: 13 groups in source order. -/
def mediapipeKeypoints : List (List Nat) :=
  [silhouette, lipsUpperOuter, lipsLowerOuter, lipsUpperInner,
   lipsLowerInner, rightEyeUpper0, rightEyeLower0, rightEyebrowUpper,
   rightEyebrowLower, leftEyeUpper0, leftEyeLower0, leftEyebrowUpper,
   leftEyebrowLower]

/-- `MEDIAPIPE_NUM_FACE_LANDMARKS`. -/
def numFaceLandmarks : Nat := 468

/-- The per-frame landmark transform loop of `fl_decode` (`fm`-revision
`draw` has the identical body): landmark `i` of the input tensor is read
as `(lx i, ly i)` and mapped through `mapCoordinate` on each axis. -/
def mapLandmarks (w h iw ih : Nat) (lx ly : Nat → ℚ) : List (Int × Int) :=
  (List.range numFaceLandmarks).map
    (fun i => (mapCoordinate w iw (lx i), mapCoordinate h ih (ly i)))

/-- The segment index pairs `draw_lines` walks for a group `g`:
`for (i = 0; i < len - 1; i++)` over `(g[i], g[i+1])`. -/
def segmentsDrawn (g : List Nat) : List (Nat × Nat) :=
  (List.range (g.length - 1)).map (fun i => (g.getD i 0, g.getD (i + 1) 0))

/-- `draw_lines` of facelandmark.c (both revisions; the facemesh.c third
revision's `draw_lines` over a `line_data` entry and the facemesh.c first
revision's `draw_line` wrapper have the same loop): draws one `draw_line`
per consecutive index pair of the group, looking the endpoints up in the
transformed point list. -/
def draw_lines (w h lw : Nat) (pts : List (Int × Int)) (g : List Nat)
    (frame : Frame) : Frame :=
  (segmentsDrawn g).foldl
    (fun f s =>
      let p0 := pts.getD s.1 (0, 0)
      let p1 := pts.getD s.2 (0, 0)
      draw_line w h lw p0.1 p0.2 p1.1 p1.2 f)
    frame

/-- The facemesh.c first revision's analogue of `draw_lines`
(named `draw_line` there), built on `draw_single_line`. -/
def fm_draw_lines (w : Nat) (pts : List (Int × Int)) (g : List Nat)
    (frame : Frame) : Frame :=
  (segmentsDrawn g).foldl
    (fun f s =>
      let p0 := pts.getD s.1 (0, 0)
      let p1 := pts.getD s.2 (0, 0)
      draw_single_line w p0.1 p0.2 p1.1 p1.2 f)
    frame

/-- The lines pass: `for (i = 0; i < MEDIAPIPE_NUM_LINES; i++)
draw_lines (...)` (facelandmark.c both revisions; the facemesh.c third
revision iterates `fldata->keypoints`, which option1 sets to the same
table). -/
def drawLinesPass (w h lw : Nat) (pts : List (Int × Int)) (frame : Frame) :
    Frame :=
  mediapipeKeypoints.foldl (fun f g => draw_lines w h lw pts g f) frame

/-- The lines pass of the facemesh.c first revision. -/
def fmDrawLinesPass (w : Nat) (pts : List (Int × Int)) (frame : Frame) :
    Frame :=
  mediapipeKeypoints.foldl (fun f g => fm_draw_lines w pts g f) frame

/-- The points pass `for (i = 0; i < MEDIAPIPE_NUM_FACE_LANDMARKS; i++)
draw_point (frame, ..., points[i], r, 0xFF0000FF)` (facelandmark.c both
revisions and, with its own radius, the facemesh.c first revision; the
facemesh.c third revision iterates `face->points->len` entries, which
its decode always fills with exactly 468 points, giving the same pass). -/
def drawPointsPass (w h r : Nat) (pts : List (Int × Int)) (frame : Frame) :
    Frame :=
  (List.range numFaceLandmarks).foldl
    (fun f i =>
      let p := pts.getD i (0, 0)
      draw_point w h p.1 p.2 r pointColor f)
    frame

/-! ## Decoder state and decode-call embeddings -/

/-- `face_landmark_modes`: the decoders only ever test the mode against
`MEDIAPIPE_FACE_MESH`, so every other value (including the `-1` that
`find_key_strv` yields for unrecognized strings) is collapsed into
`unknown`. -/
inductive Mode where
  | mesh
  | unknown
  deriving DecidableEq

/-- `GstFlowReturn` restricted to the two values the decoders return. -/
inductive Flow where
  | ok
  | error
  deriving DecidableEq

/-- `face_landmark_data` of the `fl_` revisions (facelandmark.c second
revision and facemesh.c third revision; the latter's `keypoints` /
`num_keypoints` fields always hold the static `mediapipe_keypoints`
table embedded above whenever the mode is `mesh`, so they are not
duplicated here). -/
structure FLData where
  mode : Mode
  prob_threshold : ℚ
  line_width : Nat
  point_size : Nat
  width : Nat
  height : Nat
  i_width : Nat
  i_height : Nat
  deriving DecidableEq

/-- `fl_init`: `g_new0` plus the explicit field writes
(`mode = FACE_LANDMARK_UNKNOWN; prob_threshold = 0.5;` and zero
dimensions; `line_width` / `point_size` stay at the `g_new0` zero until
option1 selects the mesh mode). -/
def fl_init : FLData :=
  ⟨Mode.unknown, 1/2, 0, 0, 0, 0, 0, 0⟩

/-- Outcome of one decode call: the flow result, the mapped frame as
left behind, and the buffer-lifecycle facts the claims mention (`true`
when `gst_memory_unmap` resp. `gst_memory_unref` ran on the path taken,
and whether the memory was instead attached to the caller's buffer with
`gst_buffer_append_memory`). -/
structure DecodeResult where
  flow : Flow
  frame : Frame
  unmapped : Bool
  unreffed : Bool
  attached : Bool

/-- `draw` of the facelandmark.c second revision: the whole body is
guarded by the strict test `if (face->prob > fldata->prob_threshold)`;
inside, lines are drawn first, points second. -/
def FLb.draw (d : FLData) (p : ℚ) (pts : List (Int × Int)) (frame : Frame) :
    Frame :=
  if d.prob_threshold < p then
    drawPointsPass d.width d.height d.point_size pts
      (drawLinesPass d.width d.height d.line_width pts frame)
  else frame

/-- `fl_decode` of the facelandmark.c second revision.  `lx ly` read the
landmark tensor, `p` is the `_sigmoid` of the probability tensor's float,
`needAlloc` is `gst_buffer_get_size (outbuf) == 0`; memory mapping is
assumed to succeed. -/
def FLb.fl_decode (d : FLData) (lx ly : Nat → ℚ) (p : ℚ)
    (needAlloc : Bool) : DecodeResult :=
  match d.mode with
  | Mode.mesh =>
    let pts := mapLandmarks d.width d.height d.i_width d.i_height lx ly
    ⟨Flow.ok, FLb.draw d p pts zeroFrame, true, !needAlloc, needAlloc⟩
  | Mode.unknown =>
    ⟨Flow.error, zeroFrame, true, true, false⟩

/-- `draw` of the facemesh.c third revision: lines first, points second,
with no gate of its own (`fl_decode` only calls it when `face.valid`). -/
def FMc.draw (d : FLData) (pts : List (Int × Int)) (frame : Frame) : Frame :=
  drawPointsPass d.width d.height d.point_size pts
    (drawLinesPass d.width d.height d.line_width pts frame)

/-- `fl_decode` of the facemesh.c third revision:
`face.valid = (face.prob >= fldata->prob_threshold);` and
`if (face.valid) draw (...)`; the unknown-mode branch jumps to
`error_unmap` (unmap, then unref, then return `GST_FLOW_ERROR`). -/
def FMc.fl_decode (d : FLData) (lx ly : Nat → ℚ) (p : ℚ)
    (needAlloc : Bool) : DecodeResult :=
  match d.mode with
  | Mode.mesh =>
    let pts := mapLandmarks d.width d.height d.i_width d.i_height lx ly
    let frame := if d.prob_threshold ≤ p then FMc.draw d pts zeroFrame
                 else zeroFrame
    ⟨Flow.ok, frame, true, !needAlloc, needAlloc⟩
  | Mode.unknown =>
    ⟨Flow.error, zeroFrame, true, true, false⟩

/-- `draw` of the facelandmark.c first revision (`fm_` symbols): maps the
raw landmarks itself, then draws lines first and points second with the
constant radii `MEDIAPIPE_LINE_WIDTH = 1`, `MEDIAPIPE_POINT_SIZE = 2`. -/
def FLa.draw (w h iw ih : Nat) (lx ly : Nat → ℚ) (frame : Frame) : Frame :=
  let pts := mapLandmarks w h iw ih lx ly
  drawPointsPass w h 2 pts (drawLinesPass w h 1 pts frame)

/-- `draw` of the facemesh.c first revision (`fm_` symbols): maps the raw
landmarks, then — unlike every other revision — stamps all points first
(radius `MEDIAPIPE_POINT_SIZE = 3`) and rasterizes the lines afterwards
with the unclipped `draw_single_line`. -/
def FMa.draw (w h iw ih : Nat) (lx ly : Nat → ℚ) (frame : Frame) : Frame :=
  let pts := mapLandmarks w h iw ih lx ly
  fmDrawLinesPass w pts (drawPointsPass w h 3 pts frame)

/-- `fm_decode` of the facemesh.c first revision: zero-fills and always
draws (no probability tensor is consumed). -/
def FMa.fm_decode (w h iw ih : Nat) (lx ly : Nat → ℚ)
    (needAlloc : Bool) : DecodeResult :=
  ⟨Flow.ok, FMa.draw w h iw ih lx ly zeroFrame, true, !needAlloc, needAlloc⟩

/-- `fl_setOption` of the facemesh.c third revision (the facelandmark.c
second revision is identical on every branch below, except that it has no
keypoint-table fields to set in the `opNum == 0` branch).  The host-side
parsing results stand in for the raw `param` string: `modeParsed` is what
`find_key_strv (fl_modes, param)` yields, `floatParsed` what
`strtod (param, NULL)` yields, `paramEmpty` whether
`param == NULL || *param == '\0'`, and `rank` / `dim` what
`gst_tensor_parse_dimension (param, dim)` yields.  Every branch returns
TRUE. -/
def fl_setOption (d : FLData) (opNum : Int) (modeParsed : Mode)
    (floatParsed : ℚ) (paramEmpty : Bool) (rank : Nat) (dim : Nat → Nat) :
    FLData × Bool :=
  if opNum = 0 then
    let d1 := { d with mode := modeParsed }
    if modeParsed = Mode.mesh then
      ({ d1 with line_width := 1, point_size := 2 }, true)
    else (d1, true)
  else if opNum = 1 then
    if d.mode = Mode.mesh then
      ({ d with prob_threshold := floatParsed }, true)
    else (d, true)
  else if opNum = 2 then
    if paramEmpty then (d, true)
    else if rank < 2 then (d, true)
    else ({ d with width := dim 0, height := dim 1 }, true)
  else if opNum = 3 then
    if paramEmpty then (d, true)
    else if rank < 2 then (d, true)
    else ({ d with i_width := dim 0, i_height := dim 1 }, true)
  else (d, true)

/-! ## Lemmas about the coordinate mapper -/

/-- Truncation toward zero and flooring agree once clamped below by 0:
they agree on nonnegative arguments, and both are nonpositive on
negative ones. -/
theorem max_ratTrunc_eq_max_floor (q : ℚ) :
    max 0 (ratTrunc q) = max 0 ⌊q⌋ := by
  by_cases h : 0 ≤ q.num
  · have : ratTrunc q = ⌊q⌋ := by
      rw [ratTrunc, Rat.floor_def]
      exact Int.tdiv_eq_ediv h (Int.ofNat_nonneg _)
    rw [this]
  · have hq : q < 0 := by
      by_contra hq
      exact h (Rat.num_nonneg.mpr (not_lt.mp hq))
    have h1 : ratTrunc q ≤ 0 := by
      rw [ratTrunc]
      have : q.num.tdiv (q.den : Int) = -((-q.num).tdiv (q.den : Int)) := by
        rw [← Int.neg_tdiv, neg_neg]
      rw [this]
      have := Int.tdiv_nonneg (a := -q.num) (b := (q.den : Int))
        (by omega) (Int.ofNat_nonneg _)
      omega
    have h2 : ⌊q⌋ ≤ 0 := Int.floor_nonpos hq.le
    omega

/-- The code's per-axis transform agrees with the spec's
floor-then-clamp formula on every input. -/
theorem mapCoordinate_eq_spec (w iw : Nat) (c : ℚ) :
    mapCoordinate w iw c = specMapCoordinate w iw c := by
  rw [mapCoordinate, specMapCoordinate, max_ratTrunc_eq_max_floor]

/-- Doubling the argument of the floor lands on twice the floor or one
more. -/
theorem floor_two_mul_cases (q : ℚ) :
    ⌊2 * q⌋ = 2 * ⌊q⌋ ∨ ⌊2 * q⌋ = 2 * ⌊q⌋ + 1 := by
  have l1 : (⌊q⌋ : ℚ) ≤ q := Int.floor_le q
  have l2 : q < ⌊q⌋ + 1 := Int.lt_floor_add_one q
  have u1 : (2 * ⌊q⌋ : Int) ≤ ⌊2 * q⌋ := by
    apply Int.le_floor.mpr
    push_cast
    linarith
  have u2 : ⌊2 * q⌋ < 2 * ⌊q⌋ + 2 := by
    apply Int.floor_lt.mpr
    push_cast
    linarith
  omega

/-- Doubling the output extent moves the clamped transformed coordinate
to exactly twice its value or one past it. -/
theorem mapCoordinate_double (w iw : Nat) (c : ℚ) (hw : 0 < w) :
    mapCoordinate (2 * w) iw c = 2 * mapCoordinate w iw c ∨
      mapCoordinate (2 * w) iw c = 2 * mapCoordinate w iw c + 1 := by
  rw [mapCoordinate_eq_spec, mapCoordinate_eq_spec, specMapCoordinate,
    specMapCoordinate]
  have hq : ((2 * w : Nat) : ℚ) * c / (iw : ℚ) = 2 * ((w : ℚ) * c / (iw : ℚ)) := by
    push_cast
    ring
  have hcast : ((2 * w : Nat) : Int) = 2 * (w : Int) := by
    push_cast
    ring
  rw [hq, hcast]
  have hw1 : (1 : Int) ≤ (w : Int) := by exact_mod_cast hw
  rcases floor_two_mul_cases ((w : ℚ) * c / (iw : ℚ)) with h | h <;> omega

/-! ## Lemmas about the Bresenham loop -/

/-- Under the entry invariants (`dx` nonnegative, `dy` nonpositive, the
step directions pointing from the current position toward the endpoint)
the loop breaks before the fuel `(x1-x0).natAbs + (y1-y0).natAbs + 1`
runs out: every iteration either breaks or moves at least one coordinate
one step closer to the endpoint. -/
theorem bresGo_complete {A : Type} (plot : Int → Int → A → A)
    (x1 y1 sx sy dx dy : Int) (hdx : 0 ≤ dx) (hdy : dy ≤ 0) :
    ∀ (fuel : Nat) (x0 y0 err : Int) (a : A),
      ((sx = 1 ∧ x0 ≤ x1) ∨ (sx = -1 ∧ x1 ≤ x0)) →
      ((sy = 1 ∧ y0 ≤ y1) ∨ (sy = -1 ∧ y1 ≤ y0)) →
      (x1 - x0).natAbs + (y1 - y0).natAbs < fuel →
      (bresGo plot x1 y1 sx sy dx dy fuel x0 y0 err a).isSome := by
  intro fuel
  induction fuel with
  | zero =>
    intro x0 y0 err a _ _ hf
    omega
  | succ n ih =>
    intro x0 y0 err a hx hy hf
    rw [bresGo]
    by_cases hend : x0 = x1 ∧ y0 = y1
    · simp [hend]
    · rw [if_neg hend]
      by_cases hxt : dy ≤ 2 * err
      · by_cases hxeq : x0 = x1
        · simp [hxt, hxeq]
        · rw [if_pos hxt, if_neg hxeq]
          simp only
          by_cases hyt : 2 * (err + dy) ≤ dx
          · rw [if_pos hyt]
            by_cases hyeq : y0 = y1
            · simp [hyeq]
            · rw [if_neg hyeq]
              apply ih
              · rcases hx with ⟨h1, h2⟩ | ⟨h1, h2⟩
                · exact Or.inl ⟨h1, by omega⟩
                · exact Or.inr ⟨h1, by omega⟩
              · rcases hy with ⟨h1, h2⟩ | ⟨h1, h2⟩
                · exact Or.inl ⟨h1, by omega⟩
                · exact Or.inr ⟨h1, by omega⟩
              · rcases hx with ⟨h1, h2⟩ | ⟨h1, h2⟩ <;>
                  rcases hy with ⟨h3, h4⟩ | ⟨h3, h4⟩ <;>
                    subst h1 <;> subst h3 <;> omega
          · rw [if_neg hyt]
            apply ih
            · rcases hx with ⟨h1, h2⟩ | ⟨h1, h2⟩
              · exact Or.inl ⟨h1, by omega⟩
              · exact Or.inr ⟨h1, by omega⟩
            · exact hy
            · rcases hx with ⟨h1, h2⟩ | ⟨h1, h2⟩ <;> subst h1 <;> omega
      · rw [if_neg hxt]
        simp only
        by_cases hyt : 2 * err ≤ dx
        · rw [if_pos hyt]
          by_cases hyeq : y0 = y1
          · simp [hyeq]
          · rw [if_neg hyeq]
            apply ih
            · exact hx
            · rcases hy with ⟨h1, h2⟩ | ⟨h1, h2⟩
              · exact Or.inl ⟨h1, by omega⟩
              · exact Or.inr ⟨h1, by omega⟩
            · rcases hy with ⟨h1, h2⟩ | ⟨h1, h2⟩ <;> subst h1 <;> omega
        · omega

/-- The loop as entered by `draw_line` / `draw_single_line` always
breaks within its fuel, for every pair of endpoints. -/
theorem bresRun_isSome {A : Type} (plot : Int → Int → A → A)
    (x0 y0 x1 y1 : Int) (a : A) :
    (bresRun plot x0 y0 x1 y1 a).isSome := by
  rw [bresRun]
  apply bresGo_complete plot x1 y1 _ _ _ _ (abs_nonneg _)
    (neg_nonpos.mpr (abs_nonneg _))
  · by_cases h : x0 < x1
    · exact Or.inl ⟨if_pos h, h.le⟩
    · exact Or.inr ⟨if_neg h, not_lt.mp h⟩
  · by_cases h : y0 < y1
    · exact Or.inl ⟨if_pos h, h.le⟩
    · exact Or.inr ⟨if_neg h, not_lt.mp h⟩
  · rw [bresFuel]
    omega

/-- Whatever pixel list the instrumented loop returns contains the pixel
it visited first and everything already accumulated. -/
theorem bresGo_trace_mem (x1 y1 sx sy dx dy : Int) :
    ∀ (fuel : Nat) (x0 y0 err : Int) (acc l : List (Int × Int)),
      bresGo (fun x y t => (x, y) :: t) x1 y1 sx sy dx dy fuel x0 y0 err acc
          = some l →
      (x0, y0) ∈ l ∧ ∀ p ∈ acc, p ∈ l := by
  intro fuel
  induction fuel with
  | zero =>
    intro x0 y0 err acc l h
    simp [bresGo] at h
  | succ n ih =>
    intro x0 y0 err acc l h
    rw [bresGo] at h
    by_cases hend : x0 = x1 ∧ y0 = y1
    · rw [if_pos hend] at h
      obtain rfl : (x0, y0) :: acc = l := Option.some.inj h
      exact ⟨List.mem_cons_self _ _, fun p hp => List.mem_cons_of_mem _ hp⟩
    · rw [if_neg hend] at h
      by_cases hxt : dy ≤ 2 * err
      · by_cases hxeq : x0 = x1
        · rw [if_pos hxt, if_pos hxeq] at h
          obtain rfl : (x0, y0) :: acc = l := Option.some.inj h
          exact ⟨List.mem_cons_self _ _, fun p hp => List.mem_cons_of_mem _ hp⟩
        · rw [if_pos hxt, if_neg hxeq] at h
          simp only at h
          by_cases hyt : 2 * (err + dy) ≤ dx
          · rw [if_pos hyt] at h
            by_cases hyeq : y0 = y1
            · rw [if_pos hyeq] at h
              obtain rfl : (x0, y0) :: acc = l := Option.some.inj h
              exact ⟨List.mem_cons_self _ _,
                fun p hp => List.mem_cons_of_mem _ hp⟩
            · rw [if_neg hyeq] at h
              obtain ⟨-, hall⟩ := ih _ _ _ _ _ h
              exact ⟨hall _ (List.mem_cons_self _ _),
                fun p hp => hall p (List.mem_cons_of_mem _ hp)⟩
          · rw [if_neg hyt] at h
            obtain ⟨-, hall⟩ := ih _ _ _ _ _ h
            exact ⟨hall _ (List.mem_cons_self _ _),
              fun p hp => hall p (List.mem_cons_of_mem _ hp)⟩
      · rw [if_neg hxt] at h
        simp only at h
        by_cases hyt : 2 * err ≤ dx
        · rw [if_pos hyt] at h
          by_cases hyeq : y0 = y1
          · rw [if_pos hyeq] at h
            obtain rfl : (x0, y0) :: acc = l := Option.some.inj h
            exact ⟨List.mem_cons_self _ _,
              fun p hp => List.mem_cons_of_mem _ hp⟩
          · rw [if_neg hyeq] at h
            obtain ⟨-, hall⟩ := ih _ _ _ _ _ h
            exact ⟨hall _ (List.mem_cons_self _ _),
              fun p hp => hall p (List.mem_cons_of_mem _ hp)⟩
        · rw [if_neg hyt] at h
          obtain ⟨-, hall⟩ := ih _ _ _ _ _ h
          exact ⟨hall _ (List.mem_cons_self _ _),
            fun p hp => hall p (List.mem_cons_of_mem _ hp)⟩

/-- Every Bresenham walk yields a visited-pixel list, and the starting
endpoint is always on it (it is plotted before any test runs). -/
theorem bresTrace_start_mem (x0 y0 x1 y1 : Int) :
    ∃ l, bresTrace x0 y0 x1 y1 = some l ∧ (x0, y0) ∈ l := by
  obtain ⟨l, hl⟩ := Option.isSome_iff_exists.mp
    (bresRun_isSome (fun x y t => (x, y) :: t) x0 y0 x1 y1 [])
  refine ⟨l, hl, ?_⟩
  rw [bresRun] at hl
  exact (bresGo_trace_mem _ _ _ _ _ _ _ _ _ _ _ _ hl).1

/-- Per-axis bounds of the transform once the output extent is positive. -/
theorem mapCoordinate_bounds (w iw : Nat) (c : ℚ) (hw : 0 < w) :
    0 ≤ mapCoordinate w iw c ∧ mapCoordinate w iw c ≤ (w : Int) - 1 := by
  have hw1 : (1 : Int) ≤ (w : Int) := by exact_mod_cast hw
  rw [mapCoordinate]
  omega

/-- Modelled from the spec (section 4.4 step 3: lines before points —
the order the claim asserts), for comparison with the facemesh.c first
revision's `draw`: the same two passes as `FMa.draw`, composed in the
opposite order. -/
def FMaSpec.draw (w h iw ih : Nat) (lx ly : Nat → ℚ) (frame : Frame) :
    Frame :=
  let pts := mapLandmarks w h iw ih lx ly
  drawPointsPass w h 3 pts (fmDrawLinesPass w pts frame)

/-! ## Claim theorems -/

set_option maxRecDepth 1000000 in
/-- Claim C1: the claim asserts that during a decode call with positive
output dimensions every pixel store of the stamp primitives lands at a
flat index inside `[0, width*height)` and that out-of-range attempts are
no-ops.  The legacy clip test is inclusive at `width` and `height`, so a
mesh-mode decode with output 1x1, all landmarks clamped to (0, 0) and a
passing presence gate stores the point colour at flat index
`1 * width + 0 = 1 = width * height`, one pixel past the end of the
allocated `width*height*4`-byte frame (and `draw_point` alone already
does so); the untouched buffer would have held 0 there. -/
theorem decode_writes_out_of_bounds_at_1x1 :
    (FMc.fl_decode ⟨Mode.mesh, 1/2, 1, 2, 1, 1, 1, 1⟩ (fun _ => 0)
        (fun _ => 0) 1 true).frame 1 = pointColor ∧
      (draw_point 1 1 0 0 2 pointColor zeroFrame) 1 = pointColor ∧
      zeroFrame 1 = 0 ∧ pointColor ≠ 0 := by
  with_unfolding_all decide

set_option maxRecDepth 1000000 in
/-- Claim C2 counterexample: with the default threshold 1/2 and presence
probability exactly 1/2 (the value `_sigmoid` returns for logit 0, also
in IEEE float arithmetic), the facelandmark.c revision's strict gate
`face->prob > fldata->prob_threshold` draws nothing — the buffer stays
all-zero at the landmark pixel — although the claim's inclusive gate
(`sigmoid(logit) >= threshold`) demands that drawing proceed, as it
does for probability 1 where the same pixel receives the point colour. -/
theorem strict_gate_skips_at_equal_threshold :
    ((1 : ℚ)/2 ≥ (1 : ℚ)/2) ∧
      (FLb.fl_decode ⟨Mode.mesh, 1/2, 1, 2, 4, 4, 1, 1⟩ (fun _ => 0)
          (fun _ => 0) (1/2) true).frame 0 = 0 ∧
      (FLb.fl_decode ⟨Mode.mesh, 1/2, 1, 2, 4, 4, 1, 1⟩ (fun _ => 0)
          (fun _ => 0) 1 true).frame 0 = pointColor ∧
      pointColor ≠ 0 := by
  with_unfolding_all decide

/-- Claim C2 (amended): in mesh mode, the facemesh.c `fl_decode` gate is
inclusive — probability below the threshold returns OK with the cleared
all-zero buffer, and at or above it the drawn frame; the facelandmark.c
revision's gate is strict — probability at or below the threshold
(including exact equality) returns OK with the all-zero buffer, and
drawing proceeds only strictly above it. -/
theorem threshold_gate_characterization (d : FLData) (lx ly : Nat → ℚ)
    (p : ℚ) (na : Bool) (hm : d.mode = Mode.mesh) :
    (p < d.prob_threshold →
      (FMc.fl_decode d lx ly p na).flow = Flow.ok ∧
      (FMc.fl_decode d lx ly p na).frame = zeroFrame) ∧
    (d.prob_threshold ≤ p →
      (FMc.fl_decode d lx ly p na).flow = Flow.ok ∧
      (FMc.fl_decode d lx ly p na).frame =
        FMc.draw d (mapLandmarks d.width d.height d.i_width d.i_height lx ly)
          zeroFrame) ∧
    (p ≤ d.prob_threshold →
      (FLb.fl_decode d lx ly p na).flow = Flow.ok ∧
      (FLb.fl_decode d lx ly p na).frame = zeroFrame) ∧
    (d.prob_threshold < p →
      (FLb.fl_decode d lx ly p na).flow = Flow.ok ∧
      (FLb.fl_decode d lx ly p na).frame =
        FMc.draw d (mapLandmarks d.width d.height d.i_width d.i_height lx ly)
          zeroFrame) := by
  obtain ⟨mode, thr, lw, ps, w, h, iw, ih⟩ := d
  cases hm
  refine ⟨fun hlt => ⟨rfl, ?_⟩, fun hge => ⟨rfl, ?_⟩,
    fun hle => ⟨rfl, ?_⟩, fun hgt => ⟨rfl, ?_⟩⟩
  · simp only [FMc.fl_decode]
    rw [if_neg (not_le.mpr hlt)]
  · simp only [FMc.fl_decode]
    rw [if_pos hge]
  · simp only [FLb.fl_decode, FLb.draw]
    rw [if_neg (not_lt.mpr hle)]
  · simp only [FLb.fl_decode, FLb.draw, FMc.draw]
    rw [if_pos hgt]

/-- Claim C2 witness: concrete instances of the amended gate facts. -/
theorem threshold_gate_characterization_witness :
    ((FMc.fl_decode ⟨Mode.mesh, 1/2, 1, 2, 4, 4, 1, 1⟩ (fun _ => 0)
        (fun _ => 0) (1/4) true).flow = Flow.ok ∧
      (FMc.fl_decode ⟨Mode.mesh, 1/2, 1, 2, 4, 4, 1, 1⟩ (fun _ => 0)
        (fun _ => 0) (1/4) true).frame = zeroFrame) ∧
    ((FLb.fl_decode ⟨Mode.mesh, 1/2, 1, 2, 4, 4, 1, 1⟩ (fun _ => 0)
        (fun _ => 0) (1/2) true).flow = Flow.ok ∧
      (FLb.fl_decode ⟨Mode.mesh, 1/2, 1, 2, 4, 4, 1, 1⟩ (fun _ => 0)
        (fun _ => 0) (1/2) true).frame = zeroFrame) :=
  ⟨(threshold_gate_characterization _ _ _ _ _ rfl).1 (by norm_num),
   (threshold_gate_characterization _ _ _ _ _ rfl).2.2.1 (by norm_num)⟩

/-- Claim C3: for positive configured dimensions, the code's per-axis
transform (truncating cast, then `MAX 0`, then `MIN (w-1)`) coincides
with the spec's `clamp(floor(width * x / i_width), 0, width - 1)` on
every landmark coordinate, and every transformed point stored by the
landmark loop lies inside `[0, width-1] x [0, height-1]`. -/
theorem coordinate_mapper_matches_spec (w h iw ih : Nat) (lx ly : Nat → ℚ)
    (x y : ℚ) (hw : 0 < w) (hh : 0 < h) (hiw : 0 < iw) (hih : 0 < ih) :
    mapCoordinate w iw x = specMapCoordinate w iw x ∧
    mapCoordinate h ih y = specMapCoordinate h ih y ∧
    (0 ≤ mapCoordinate w iw x ∧ mapCoordinate w iw x ≤ (w : Int) - 1) ∧
    (0 ≤ mapCoordinate h ih y ∧ mapCoordinate h ih y ≤ (h : Int) - 1) ∧
    ∀ pt ∈ mapLandmarks w h iw ih lx ly,
      (0 ≤ pt.1 ∧ pt.1 ≤ (w : Int) - 1) ∧
      (0 ≤ pt.2 ∧ pt.2 ≤ (h : Int) - 1) := by
  refine ⟨mapCoordinate_eq_spec w iw x, mapCoordinate_eq_spec h ih y,
    mapCoordinate_bounds w iw x hw, mapCoordinate_bounds h ih y hh, ?_⟩
  intro pt hpt
  rw [mapLandmarks] at hpt
  obtain ⟨i, -, rfl⟩ := List.mem_map.mp hpt
  exact ⟨mapCoordinate_bounds w iw (lx i) hw,
    mapCoordinate_bounds h ih (ly i) hh⟩

/-- Claim C3 witness: the spec's own end-to-end example — input space
640x480, output space 256x256, a landmark at input x = 640 clamps to
output column 255. -/
theorem coordinate_mapper_matches_spec_witness :
    mapCoordinate 256 640 640 = specMapCoordinate 256 640 640 ∧
    mapCoordinate 256 640 640 = 255 ∧ mapCoordinate 256 640 0 = 0 :=
  ⟨(coordinate_mapper_matches_spec 256 256 640 480 (fun _ => 0) (fun _ => 0)
      640 0 (by norm_num) (by norm_num) (by norm_num) (by norm_num)).1,
   by with_unfolding_all decide, by with_unfolding_all decide⟩

set_option maxRecDepth 1000000 in
/-- Claim C4 counterexample: the facemesh.c first revision's `draw`
stamps all points first and rasterizes the lines afterwards.  With
output 8x8, input 1x1 and every landmark at (1/2, 1/2) — all transformed
points at pixel (4, 4), flat index 36 — its decode leaves the line
colour on top at that pixel, while the same passes in the claimed
lines-then-points order leave the point colour there. -/
theorem facemesh_draw_order_points_then_lines :
    (FMa.fm_decode 8 8 1 1 (fun _ => 1/2) (fun _ => 1/2) true).frame 36
        = lineColor ∧
      (FMaSpec.draw 8 8 1 1 (fun _ => 1/2) (fun _ => 1/2) zeroFrame) 36
        = pointColor ∧
      lineColor ≠ pointColor := by
  with_unfolding_all decide

set_option maxRecDepth 1000000 in
/-- Claim C4 (amended): the facelandmark.c revisions and the facemesh.c
third revision draw lines first and points last (the point colour wins
at a pixel covered by both passes), but the facemesh.c first revision
draws points first and lines last, so there the line colour wins: at the
shared input (all landmarks mapping to pixel (4, 4) of an 8x8 frame) the
former decoders leave the point colour at flat index 36 and the latter
the line colour. -/
theorem draw_order_contrast :
    (FLb.fl_decode ⟨Mode.mesh, 1/2, 1, 2, 8, 8, 1, 1⟩ (fun _ => 1/2)
        (fun _ => 1/2) 1 true).frame 36 = pointColor ∧
      (FMc.fl_decode ⟨Mode.mesh, 1/2, 1, 2, 8, 8, 1, 1⟩ (fun _ => 1/2)
        (fun _ => 1/2) 1 true).frame 36 = pointColor ∧
      (FLa.draw 8 8 1 1 (fun _ => 1/2) (fun _ => 1/2) zeroFrame) 36
        = pointColor ∧
      (FMa.fm_decode 8 8 1 1 (fun _ => 1/2) (fun _ => 1/2) true).frame 36
        = lineColor ∧
      pointColor ≠ lineColor := by
  with_unfolding_all decide

/-- Claim C5 counterexample: with input extent 4 and a landmark at
x = 1, output extent 2 maps to column 0 but the doubled output extent 4
maps to column 1, which is not exactly twice 0 (and no clamping is
involved: 1 lies well inside [0, 3]). -/
theorem doubling_not_exact :
    mapCoordinate 2 4 1 = 0 ∧ mapCoordinate (2 * 2) 4 1 = 1 ∧
      (1 : Int) ≠ 2 * 0 := by
  with_unfolding_all decide

/-- Claim C5 (amended): doubling both output extents (input dimensions
and landmarks fixed) moves every transformed coordinate to exactly twice
its original value or to one pixel past it, subject to clamping; the
half-pixel of the original truncation decides which. -/
theorem doubling_within_one_pixel (w h iw ih : Nat) (x y : ℚ)
    (hw : 0 < w) (hh : 0 < h) :
    (mapCoordinate (2 * w) iw x = 2 * mapCoordinate w iw x ∨
      mapCoordinate (2 * w) iw x = 2 * mapCoordinate w iw x + 1) ∧
    (mapCoordinate (2 * h) ih y = 2 * mapCoordinate h ih y ∨
      mapCoordinate (2 * h) ih y = 2 * mapCoordinate h ih y + 1) :=
  ⟨mapCoordinate_double w iw x hw, mapCoordinate_double h ih y hh⟩

/-- Claim C5 witness: the counterexample instance, seen as the `+ 1`
case of the amended claim. -/
theorem doubling_within_one_pixel_witness :
    mapCoordinate (2 * 2) 4 1 = 2 * mapCoordinate 2 4 1 ∨
      mapCoordinate (2 * 2) 4 1 = 2 * mapCoordinate 2 4 1 + 1 :=
  (doubling_within_one_pixel 2 2 4 4 1 1 (by norm_num) (by norm_num)).1

/-- Claim C6 counterexample: the walk from (0, 0) to (2, 1) visits only
(0, 0) and (1, 1) — the `if (y0 == y1) break` fires after the x step of
the second iteration, before the endpoint is ever plotted — so the
terminal endpoint receives no stamped square: with line half-width 1 on
a 10x10 frame, pixel (3, 2) (flat index 23), which only a square centred
at the endpoint (2, 1) could reach, stays 0, although the line did draw
(pixel (1, 1), flat index 11, holds the line colour). -/
theorem line_endpoint_not_visited :
    bresTrace 0 0 2 1 = some [(1, 1), (0, 0)] ∧
      ((2, 1) : Int × Int) ∉ [((1, 1) : Int × Int), (0, 0)] ∧
      draw_line 10 10 1 0 0 2 1 zeroFrame 23 = 0 ∧
      draw_line 10 10 1 0 0 2 1 zeroFrame 11 = lineColor := by
  decide

/-- Claim C6 (amended): for every topology group of length k the drawing
pass rasterizes exactly k-1 line segments, one between each consecutive
index pair of the group's list, and every visited pixel of each walk —
always including the starting endpoint, but not necessarily the terminal
one, which the early-exit breaks may skip — is stamped with a square of
the configured line half-width. -/
theorem segments_and_start_endpoint :
    (∀ g ∈ mediapipeKeypoints,
      segmentsDrawn g = g.zip g.tail ∧
      (segmentsDrawn g).length = g.length - 1 ∧ 2 ≤ g.length) ∧
    ∀ x0 y0 x1 y1 : Int,
      ∃ l, bresTrace x0 y0 x1 y1 = some l ∧ (x0, y0) ∈ l := by
  exact ⟨by decide, bresTrace_start_mem⟩

/-- Claim C6 witness: the silhouette group (37 indices, 36 segments) and
one concrete walk. -/
theorem segments_and_start_endpoint_witness :
    (segmentsDrawn silhouette = silhouette.zip silhouette.tail ∧
      (segmentsDrawn silhouette).length = silhouette.length - 1 ∧
      2 ≤ silhouette.length) ∧
    ∃ l, bresTrace 5 5 9 7 = some l ∧ ((5, 5) : Int × Int) ∈ l :=
  ⟨segments_and_start_endpoint.1 silhouette (by simp [mediapipeKeypoints]),
   segments_and_start_endpoint.2 5 5 9 7⟩

/-- Claim C7: a decode call whose mode is not mediapipe-face-mesh (the
only other value of the mode type is the unknown fallthrough) returns
GST_FLOW_ERROR — distinct from GST_FLOW_OK — leaves only the zero-fill
in the buffer, and both unmaps and unreferences the acquired output
memory before returning, for every configuration, landmark input,
probability and buffer-allocation state. -/
theorem unknown_mode_decode_fails_cleanly (d : FLData) (lx ly : Nat → ℚ)
    (p : ℚ) (na : Bool) :
    FMc.fl_decode { d with mode := Mode.unknown } lx ly p na =
      ⟨Flow.error, zeroFrame, true, true, false⟩ ∧
    FLb.fl_decode { d with mode := Mode.unknown } lx ly p na =
      ⟨Flow.error, zeroFrame, true, true, false⟩ ∧
    Flow.error ≠ Flow.ok :=
  ⟨rfl, rfl, by decide⟩

/-- Claim C8: a dimension option (output size, opNum 2, or input size,
opNum 3) with a non-empty parameter parsing to rank < 2 returns TRUE and
leaves the whole state unchanged; with rank >= 2 (in particular > 2) it
applies the first two parsed elements and ignores the rest, still
returning TRUE. -/
theorem dimension_option_rank_handling (d : FLData) (mp : Mode) (fp : ℚ)
    (rank : Nat) (dim : Nat → Nat) :
    (rank < 2 →
      fl_setOption d 2 mp fp false rank dim = (d, true) ∧
      fl_setOption d 3 mp fp false rank dim = (d, true)) ∧
    (2 ≤ rank →
      fl_setOption d 2 mp fp false rank dim =
        ({ d with width := dim 0, height := dim 1 }, true) ∧
      fl_setOption d 3 mp fp false rank dim =
        ({ d with i_width := dim 0, i_height := dim 1 }, true)) := by
  constructor
  · intro hr
    constructor <;> simp [fl_setOption, hr]
  · intro hr
    constructor <;> simp [fl_setOption, Nat.not_lt.mpr hr]

/-- Claim C8 witness: a malformed rank-1 parameter is ignored on the
fresh state; a rank-3 parameter applies its first two elements. -/
theorem dimension_option_rank_handling_witness :
    fl_setOption fl_init 2 Mode.unknown 0 false 1 (fun _ => 77)
        = (fl_init, true) ∧
      fl_setOption fl_init 2 Mode.unknown 0 false 3 (fun i => 7 + i)
        = ({ fl_init with width := 7, height := 8 }, true) := by
  refine ⟨((dimension_option_rank_handling fl_init Mode.unknown 0 1
      (fun _ => 77)).1 (by norm_num)).1, ?_⟩
  have h := ((dimension_option_rank_handling fl_init Mode.unknown 0 3
      (fun i => 7 + i)).2 (by norm_num)).1
  simpa using h

/-- Claim C9: for all integer endpoints (and any plot action — in
particular the ones `draw_line` and `draw_single_line` install), the
Bresenham loop entered the way the source enters it reaches one of its
breaks within `|x1-x0| + |y1-y0| + 1` iterations: the run is `some`,
never the fuel-exhaustion `none`. -/
theorem bresenham_loop_terminates (w h lw : Nat) (x0 y0 x1 y1 : Int)
    (fr : Frame) :
    (bresRun (fun x y f => draw_point w h x y lw lineColor f)
        x0 y0 x1 y1 fr).isSome ∧
    (bresRun (fun x y f => setPix f (y * (w : Int) + x) lineColor)
        x0 y0 x1 y1 fr).isSome ∧
    ∀ (A : Type) (plot : Int → Int → A → A) (a : A),
      (bresRun plot x0 y0 x1 y1 a).isSome :=
  ⟨bresRun_isSome _ _ _ _ _ _, bresRun_isSome _ _ _ _ _ _,
   fun _ plot a => bresRun_isSome plot _ _ _ _ a⟩

/-- Claim C10: the probability-threshold option (opNum 1) updates
`prob_threshold` only when the mode is already mediapipe-face-mesh; with
the mode still unknown the call returns TRUE and the state — in
particular the `fl_init` default threshold 1/2 — is unchanged. -/
theorem prob_threshold_order_dependent (d : FLData) (q : ℚ) (mp : Mode)
    (pe : Bool) (rank : Nat) (dim : Nat → Nat) :
    fl_setOption { d with mode := Mode.unknown } 1 mp q pe rank dim =
      ({ d with mode := Mode.unknown }, true) ∧
    (fl_setOption { d with mode := Mode.mesh } 1 mp q pe rank dim).1.prob_threshold
      = q ∧
    fl_setOption fl_init 1 mp q pe rank dim = (fl_init, true) ∧
    fl_init.prob_threshold = 1/2 := by
  refine ⟨?_, ?_, ?_, rfl⟩ <;> simp [fl_setOption, fl_init]

end NNS
